import Mathlib

/-!
Verification development for the nevergrad repository slice consisting of
`nevergrad/parametrization/transforms.py` and `nevergrad/optimization/test_base.py`.

The transform subsystem is embedded shallowly: numpy one-dimensional arrays become
`List ℝ`, numpy shapes become the list length, and every operation that can raise a
Python exception returns `Except String`.  Elementwise numpy arithmetic with
broadcasting of a length-one array against a longer one is modelled by `bget`.

Modelling conventions (each noted again at the definition it concerns):
* `np.max` / `np.min` of a zero-size array raise in numpy ("zero-size array to
  reduction operation maximum/minimum which has no identity"); every function that
  calls them guards the empty input with that error, so the `npMax`/`npMin`
  definitions themselves are only ever applied to nonempty lists (their `[]`
  equation carries an arbitrary value 0 that no reachable call site observes).
* Elementwise arithmetic between arrays of lengths `m` and `k` requires numpy
  broadcast compatibility (`m = k`, or one of them is 1); otherwise numpy raises
  "operands could not be broadcast together".  `bcOk` captures the compatibility
  test and `bclen` the broadcast result length; the bound transforms check them
  where the source's array expressions would broadcast.
* Python truthiness of a numpy boolean array (`if arr or ...`) is the single
  element for a length-one array and raises a `ValueError` ("The truth value of an
  array with more than one element is ambiguous") otherwise; `npTruthy` models this.
* `np.log` of a nonpositive number yields a non-real result without raising; it is
  modelled by `Real.log`, whose value there is likewise junk.  No theorem depends
  on the value of a junk result.
-/

abbrev Arr := List ℝ

/-- Elementwise access to a numpy array that participates in broadcasting: a
length-one array broadcasts its single element to every index. -/
noncomputable def bget (v : Arr) (i : ℕ) : ℝ :=
  if v.length = 1 then v.headD 0 else v.getD i 0

/-- Elementwise map carrying the index, the building block for broadcast
arithmetic such as `self._b + self._a * np.tanh(x)`. -/
noncomputable def mapWith (f : ℕ → ℝ → ℝ) : ℕ → Arr → Arr
  | _, [] => []
  | i, t :: ts => f i t :: mapWith f (i + 1) ts

theorem mapWith_length (f : ℕ → ℝ → ℝ) : ∀ (k : ℕ) (x : Arr), (mapWith f k x).length = x.length := by
  intro k x
  induction x generalizing k with
  | nil => rfl
  | cons t ts ih => simp [mapWith, ih]

theorem mapWith_getD (f : ℕ → ℝ → ℝ) :
    ∀ (x : Arr) (k j : ℕ), j < x.length → (mapWith f k x).getD j 0 = f (k + j) (x.getD j 0) := by
  intro x
  induction x with
  | nil => intro k j h; simp at h
  | cons t ts ih =>
    intro k j h
    cases j with
    | zero => simp [mapWith]
    | succ j =>
      simp only [mapWith, List.getD_cons_succ]
      rw [ih (k + 1) j (by simpa using h)]
      ring_nf

theorem mapWith_mapWith (f g : ℕ → ℝ → ℝ) :
    ∀ (k : ℕ) (x : Arr), mapWith g k (mapWith f k x) = mapWith (fun i t => g i (f i t)) k x := by
  intro k x
  induction x generalizing k with
  | nil => rfl
  | cons t ts ih => simp [mapWith, ih]

theorem mapWith_eq_self (f : ℕ → ℝ → ℝ) :
    ∀ (k : ℕ) (x : Arr), (∀ j, j < x.length → f (k + j) (x.getD j 0) = x.getD j 0) →
    mapWith f k x = x := by
  intro k x
  induction x generalizing k with
  | nil => intro _; rfl
  | cons t ts ih =>
    intro h
    have h0 := h 0 (by simp)
    simp only [List.getD_cons_zero, Nat.add_zero] at h0
    simp only [mapWith, h0, List.cons.injEq, true_and]
    refine ih (k + 1) ?_
    intro j hj
    have := h (j + 1) (by simpa using Nat.succ_lt_succ hj)
    simpa [Nat.add_assoc, Nat.add_comm 1 j] using this

/-- Model of `np.max` on a one-dimensional array.  `np.max` raises on a zero-size
array; every caller in this file guards the empty input with that error before
applying `npMax`, so the `[]` equation below (an arbitrary 0) is unreachable. -/
noncomputable def npMax : Arr → ℝ
  | [] => 0
  | [t] => t
  | t :: s :: ts => max t (npMax (s :: ts))

/-- Model of `np.min`, with the same empty-array convention as `npMax`. -/
noncomputable def npMin : Arr → ℝ
  | [] => 0
  | [t] => t
  | t :: s :: ts => min t (npMin (s :: ts))

theorem getD_le_npMax : ∀ (l : Arr) (i : ℕ), i < l.length → l.getD i 0 ≤ npMax l := by
  intro l
  induction l with
  | nil => intro i h; simp at h
  | cons t ts ih =>
    intro i h
    cases ts with
    | nil =>
      cases i with
      | zero => simp [npMax]
      | succ i => simp at h
    | cons s ts2 =>
      cases i with
      | zero => simp [npMax]
      | succ i =>
        have := ih i (by simpa using h)
        simp only [List.getD_cons_succ]
        exact le_trans this (le_max_right _ _)

theorem npMin_le_getD : ∀ (l : Arr) (i : ℕ), i < l.length → npMin l ≤ l.getD i 0 := by
  intro l
  induction l with
  | nil => intro i h; simp at h
  | cons t ts ih =>
    intro i h
    cases ts with
    | nil =>
      cases i with
      | zero => simp [npMin]
      | succ i => simp at h
    | cons s ts2 =>
      cases i with
      | zero => simp [npMin]
      | succ i =>
        have := ih i (by simpa using h)
        simp only [List.getD_cons_succ]
        exact le_trans (min_le_right _ _) this

/-- Python truthiness of a numpy boolean array, as used in
`if np.max(y) > self.a_max or ...`: a length-one array yields its element, an
array with more than one element raises a `ValueError`.  A zero-size array was
falsy (with a deprecation warning) in the numpy of this era. -/
def npTruthy : List Bool → Except String Bool
  | [b] => .ok b
  | [] => .ok false
  | _ => .error "The truth value of an array with more than one element is ambiguous"

/-- Model of `BoundTransform._check_shape`. -/
def checkShape (shape : ℕ) (x : Arr) : Except String Unit :=
  if shape ≠ 1 ∧ x.length ≠ shape then .error "Shapes do not match" else .ok ()

/-- Success of a fallible operation (no Python exception raised). -/
def isOk {α : Type _} (e : Except String α) : Prop := ∃ a, e = Except.ok a

/-- Failure of a fallible operation (a Python exception raised). -/
def isErr {α : Type _} (e : Except String α) : Prop := ∃ m, e = Except.error m

theorem isOk_of_eq {α : Type _} {e : Except String α} {a : α} (h : e = Except.ok a) : isOk e :=
  ⟨a, h⟩

theorem not_isOk_error {α : Type _} {m : String} : ¬ isOk (Except.error m : Except String α) := by
  rintro ⟨a, h⟩; cases h

/-- Model of the `Transform` base class: a name together with the forward and
backward maps, both able to raise. -/
structure Transform where
  name : String
  forward : Arr → Except String Arr
  backward : Arr → Except String Arr

/-- Model of the `Reverted` wrapper class: delegates, swapping directions, and
prepends `Rv(...)` to the name. -/
def Reverted (t : Transform) : Transform :=
  { name := "Rv(" ++ t.name ++ ")", forward := t.backward, backward := t.forward }

/-- Model of `Transform.reverted`, which returns `Reverted(self)`. -/
def Transform.reverted (t : Transform) : Transform := Reverted t

/-- Inverse hyperbolic tangent as numpy computes it, `0.5 * log((1+z)/(1-z))`
(not present in this Mathlib snapshot under that name). -/
noncomputable def arctanh (z : ℝ) : ℝ := Real.log ((1 + z) / (1 - z)) / 2

/-- Model of `Affine.forward`, `a * x + b` elementwise. -/
noncomputable def Affine.forwardF (a b : ℝ) (x : Arr) : Except String Arr :=
  .ok (x.map fun t => a * t + b)

/-- Model of `Affine.backward`, `(y - b) / a` elementwise. -/
noncomputable def Affine.backwardF (a b : ℝ) (y : Arr) : Except String Arr :=
  .ok (y.map fun t => (t - b) / a)

/-- The `Affine` transform object (fields as wired by `Affine.__init__`). -/
noncomputable def Affine.mkT (a b : ℝ) : Transform :=
  { name := "Af", forward := Affine.forwardF a b, backward := Affine.backwardF a b }

/-- Model of `Affine.__init__`: rejects `a == 0` (Python `if not a`). -/
noncomputable def Affine.make (a b : ℝ) : Except String Transform :=
  if a = 0 then .error "the a parameter should be non-zero to prevent information loss."
  else .ok (Affine.mkT a b)

/-- Model of `Exponentiate.forward`, `base ** (coeff * x)` elementwise. -/
noncomputable def Exponentiate.forwardF (base coeff : ℝ) (x : Arr) : Except String Arr :=
  .ok (x.map fun t => base ^ (coeff * t))

/-- Model of `Exponentiate.backward`, `np.log(y) / (coeff * np.log(base))`
elementwise.  Note the source performs no validation here: nonpositive inputs
produce junk values (numpy: nan or -inf with a warning) but never raise. -/
noncomputable def Exponentiate.backwardF (base coeff : ℝ) (y : Arr) : Except String Arr :=
  .ok (y.map fun t => Real.log t / (coeff * Real.log base))

/-- The `Exponentiate` transform object; its constructor cannot fail. -/
noncomputable def Exponentiate.mkT (base coeff : ℝ) : Transform :=
  { name := "Ex", forward := Exponentiate.forwardF base coeff,
    backward := Exponentiate.backwardF base coeff }

/-- Processed state of `BoundTransform.__init__`: the (optional) bound arrays and
the shape, which is `a_min.shape` when `a_min` is given, else `a_max.shape`. -/
structure Bounds where
  a_min : Option Arr
  a_max : Option Arr
  shape : ℕ

/-- Two numpy shapes can be broadcast together exactly when they are equal or one
of them is the singleton shape. -/
def broadcastable (l h : Arr) : Prop := l.length = h.length ∨ l.length = 1 ∨ h.length = 1

instance (l h : Arr) : Decidable (broadcastable l h) :=
  inferInstanceAs (Decidable (l.length = h.length ∨ l.length = 1 ∨ h.length = 1))

/-- Broadcast compatibility of two one-dimensional lengths: equal, or one of
them is 1 (a length-1 operand stretches to the other, including to zero). -/
def bcOk (m k : ℕ) : Prop := m = k ∨ m = 1 ∨ k = 1

instance (m k : ℕ) : Decidable (bcOk m k) :=
  inferInstanceAs (Decidable (m = k ∨ m = 1 ∨ k = 1))

/-- Length of the broadcast result of two compatible one-dimensional lengths. -/
def bclen (m k : ℕ) : ℕ := if m = 1 then k else m

theorem bclen_self (n : ℕ) : bclen n n = n := by
  unfold bclen
  split <;> rfl

/-- Broadcast compatibility against an optional operand (absent means no
constraint, as for an omitted clip bound). -/
def bcOkWith (n : ℕ) : Option Arr → Prop
  | some v => bcOk n v.length
  | none => True

instance (n : ℕ) : (o : Option Arr) → Decidable (bcOkWith n o)
  | some v => inferInstanceAs (Decidable (bcOk n v.length))
  | none => Decidable.isTrue trivial

/-- Model of `BoundTransform.__init__`.  Scalars arrive as singleton lists (the
source wraps them in `np.array([value])`).  `(self.a_min >= self.a_max).any()`
is a broadcast comparison: it raises when the shapes are incompatible and
otherwise tests the broadcast-elementwise condition, captured by `bget`. -/
noncomputable def mkBounds : Option Arr → Option Arr → Except String Bounds
  | none, none => .error "At least one bound must be specified"
  | some l, none => .ok { a_min := some l, a_max := none, shape := l.length }
  | none, some h => .ok { a_min := none, a_max := some h, shape := h.length }
  | some l, some h =>
    if ¬ broadcastable l h then .error "operands could not be broadcast together"
    else if ∃ i ∈ List.range (max l.length h.length), bget h i ≤ bget l i then
      .error "Lower bounds should be strictly smaller than upper bounds"
    else .ok { a_min := some l, a_max := some h, shape := l.length }

/-- Model of `TanhBound.forward`: shape check, then
`self._b + self._a * np.tanh(x)` with `_b = (a_max + a_min) / 2` and
`_a = (a_max - a_min) / 2`.  The `_b` and `_a` arrays have the
construction-broadcast length `bclen lo.length hi.length`; adding them to
`np.tanh(x)` raises a broadcast `ValueError` when that length and the input
length are incompatible.  Elementwise values are indexed along the input; the
one corner where numpy instead tiles a length-one input against longer bounds
lies outside every theorem below (they all assume equal-shape bounds). -/
noncomputable def TanhBound.forwardF (lo hi : Arr) (shape : ℕ) (x : Arr) : Except String Arr :=
  checkShape shape x >>= fun _ =>
  if ¬ bcOk (bclen lo.length hi.length) x.length then
    .error "operands could not be broadcast together"
  else
    .ok (mapWith (fun i t =>
      (bget hi i + bget lo i) / 2 + ((bget hi i - bget lo i) / 2) * Real.tanh t) 0 x)

/-- Model of `TanhBound.backward`: shape check; then `(y > self.a_max).any()`,
a broadcast comparison that raises when the two lengths are incompatible and
otherwise tests elementwise; `or` short-circuits, so the `a_min` comparison
(with its own broadcast guard) runs only when the first test is false; finally
`np.arctanh((y - _b) / _a)` with its own broadcast guard against the
construction-broadcast bound length.  As in `TanhBound.forwardF`, elementwise
values are indexed along the input; the one corner where numpy instead tiles a
length-one input against longer bounds lies outside every theorem below: each
either assumes equal-shape bounds or asserts only that some error is raised,
which holds in that corner on both sides. -/
noncomputable def TanhBound.backwardF (lo hi : Arr) (shape : ℕ) (y : Arr) : Except String Arr :=
  checkShape shape y >>= fun _ =>
  if ¬ bcOk y.length hi.length then .error "operands could not be broadcast together"
  else if ∃ i ∈ List.range y.length, bget hi i < y.getD i 0 then
    .error "Only data between bounds can be transformed back (bounds lead to infinity)."
  else if ¬ bcOk y.length lo.length then .error "operands could not be broadcast together"
  else if ∃ i ∈ List.range y.length, y.getD i 0 < bget lo i then
    .error "Only data between bounds can be transformed back (bounds lead to infinity)."
  else if ¬ bcOk y.length (bclen lo.length hi.length) then
    .error "operands could not be broadcast together"
  else
    .ok (mapWith (fun i t =>
      arctanh ((t - (bget hi i + bget lo i) / 2) / ((bget hi i - bget lo i) / 2))) 0 y)

/-- The `TanhBound` transform object; its shape is `a_min.shape`, i.e. the length
of `lo`, exactly as `mkBounds` records it. -/
noncomputable def TanhBound.mkT (lo hi : Arr) : Transform :=
  { name := "Th", forward := TanhBound.forwardF lo hi lo.length,
    backward := TanhBound.backwardF lo hi lo.length }

/-- Model of `TanhBound.__init__`: `BoundTransform.__init__` validation followed
by the explicit requirement that both bounds are present. -/
noncomputable def TanhBound.make (a_min a_max : Option Arr) : Except String Transform :=
  match mkBounds a_min a_max with
  | .error e => .error e
  | .ok bd =>
    match bd.a_min, bd.a_max with
    | some l, some h => .ok (TanhBound.mkT l h)
    | _, _ => .error "Both bounds must be specified"

/-- Model of `ArctanBound.forward`: shape check, then
`self._b + self._a * np.arctan(x)` with `_a = (a_max - a_min) / pi`, guarded by
the same arithmetic broadcast check as `TanhBound.forwardF`. -/
noncomputable def ArctanBound.forwardF (lo hi : Arr) (shape : ℕ) (x : Arr) : Except String Arr :=
  checkShape shape x >>= fun _ =>
  if ¬ bcOk (bclen lo.length hi.length) x.length then
    .error "operands could not be broadcast together"
  else
    .ok (mapWith (fun i t =>
      (bget hi i + bget lo i) / 2 + ((bget hi i - bget lo i) / Real.pi) * Real.arctan t) 0 x)

/-- Model of `ArctanBound.backward`: shape check, then
`if np.max(y) > self.a_max or np.min(y) < self.a_min`.  `np.max` raises on a
zero-size input; the comparisons are scalar-versus-array, so Python truthiness
(`npTruthy`) applies to each before `or` combines them; then
`np.tan((y - _b) / _a)`. -/
noncomputable def ArctanBound.backwardF (lo hi : Arr) (shape : ℕ) (y : Arr) :
    Except String Arr :=
  checkShape shape y >>= fun _ =>
  if y = [] then
    .error "zero-size array to reduction operation maximum which has no identity"
  else
  npTruthy (hi.map fun hv => decide (hv < npMax y)) >>= fun c1 =>
  if c1 then .error "Only data between bounds can be transformed back."
  else
    npTruthy (lo.map fun lv => decide (npMin y < lv)) >>= fun c2 =>
    if c2 then .error "Only data between bounds can be transformed back."
    else
      .ok (mapWith (fun i t =>
        Real.tan ((t - (bget hi i + bget lo i) / 2) / ((bget hi i - bget lo i) / Real.pi))) 0 y)

/-- The `ArctanBound` transform object. -/
noncomputable def ArctanBound.mkT (lo hi : Arr) : Transform :=
  { name := "At", forward := ArctanBound.forwardF lo hi lo.length,
    backward := ArctanBound.backwardF lo hi lo.length }

/-- Model of `ArctanBound.__init__`, parallel to `TanhBound.make`. -/
noncomputable def ArctanBound.make (a_min a_max : Option Arr) : Except String Transform :=
  match mkBounds a_min a_max with
  | .error e => .error e
  | .ok bd =>
    match bd.a_min, bd.a_max with
    | some l, some h => .ok (ArctanBound.mkT l h)
    | _, _ => .error "Both bounds must be specified"

/-- Model of `Clipping.forward`: shape check then `np.clip(x, a_min, a_max)`,
i.e. elementwise `min(max(x, a_min), a_max)` with absent bounds skipped, after
broadcast guards of the input against each present bound. -/
noncomputable def Clipping.forwardF (lo hi : Option Arr) (shape : ℕ) (x : Arr) :
    Except String Arr :=
  checkShape shape x >>= fun _ =>
  if ¬ bcOkWith x.length lo then .error "operands could not be broadcast together"
  else if ¬ bcOkWith x.length hi then .error "operands could not be broadcast together"
  else
  .ok (mapWith (fun i t =>
    let t1 := match lo with
      | some l => max t (bget l i)
      | none => t
    match hi with
    | some h => min t1 (bget h i)
    | none => t1) 0 x)

/-- Model of `Clipping.backward`: shape check, then
`if (a_max is not None and np.max(y) > a_max) or (a_min is not None and np.min(y) < a_min)`,
where each present-bound branch first hits the zero-size `np.max`/`np.min`
error for an empty input, then Python truthiness of the array comparison, and
finally `return y`. -/
noncomputable def Clipping.backwardF (lo hi : Option Arr) (shape : ℕ) (y : Arr) :
    Except String Arr :=
  checkShape shape y >>= fun _ =>
  (match hi with
    | none => Except.ok false
    | some h =>
      if y = [] then
        .error "zero-size array to reduction operation maximum which has no identity"
      else npTruthy (h.map fun hv => decide (hv < npMax y))) >>= fun c1 =>
  if c1 then .error "Only data between bounds can be transformed back."
  else
    (match lo with
      | none => Except.ok false
      | some l =>
        if y = [] then
          .error "zero-size array to reduction operation minimum which has no identity"
        else npTruthy (l.map fun lv => decide (npMin y < lv))) >>= fun c2 =>
    if c2 then .error "Only data between bounds can be transformed back."
    else .ok y

/-- The `Clipping` transform object. -/
noncomputable def Clipping.mkT (lo hi : Option Arr) (shape : ℕ) : Transform :=
  { name := "Cl", forward := Clipping.forwardF lo hi shape,
    backward := Clipping.backwardF lo hi shape }

/-- Model of `Clipping.__init__`: only `BoundTransform.__init__` validation, so a
single bound may be omitted. -/
noncomputable def Clipping.make (a_min a_max : Option Arr) : Except String Transform :=
  match mkBounds a_min a_max with
  | .error e => .error e
  | .ok bd => .ok (Clipping.mkT bd.a_min bd.a_max bd.shape)

/-- Density of the standard normal distribution. -/
noncomputable def gaussianPdf (t : ℝ) : ℝ := Real.exp (-(t ^ 2) / 2) / Real.sqrt (2 * Real.pi)

/-- Model of `scipy.stats.norm.cdf`: the standard normal cumulative density. -/
noncomputable def normalCdf (x : ℝ) : ℝ := ∫ t in Set.Iic x, gaussianPdf t

/-- Model of `scipy.stats.norm.ppf`, the quantile (inverse cdf).  `normalCdf` is
a strict order bijection onto the open interval `(0, 1)` (proved below), so this
inverse agrees with scipy wherever the result is finite; at 0 and 1 scipy
returns infinities, which have no real counterpart here. -/
noncomputable def normalPpf : ℝ → ℝ := Function.invFun normalCdf

/-- Model of `CumulativeDensity.forward`, `stats.norm.cdf(x)` elementwise. -/
noncomputable def CumulativeDensity.forwardF (x : Arr) : Except String Arr :=
  .ok (x.map normalCdf)

/-- Model of `CumulativeDensity.backward`: `np.max(y)` raises on a zero-size
input; otherwise `if np.max(y) > 1 or np.min(y) < 0` raises a `ValueError`,
else `stats.norm.ppf(y)` elementwise. -/
noncomputable def CumulativeDensity.backwardF (y : Arr) : Except String Arr :=
  if y = [] then
    .error "zero-size array to reduction operation maximum which has no identity"
  else if 1 < npMax y ∨ npMin y < 0 then
    .error "Only data between 0 and 1 can be transformed back (bounds lead to infinity)."
  else .ok (y.map normalPpf)

/-- The `CumulativeDensity` transform object; its constructor cannot fail. -/
noncomputable def CumulativeDensity.mkT : Transform :=
  { name := "Cd()", forward := CumulativeDensity.forwardF,
    backward := CumulativeDensity.backwardF }

/-- Archive entry for one internal representation: the point, the sum of all told
losses for it, and how many times it was told.  The mean `sum / count` is the
aggregated value the recommendation compares. -/
structure ArchiveEntry where
  point : List ℚ
  lossSum : ℚ
  count : ℕ
deriving DecidableEq

/-- Modelled from the spec: the `AskTellProtocol` bookkeeping state of
`base.Optimizer`, which is not under `src/` (only its tests are).  It carries the
`archive` (one entry per distinct internal representation, in first-told order)
and the `num_ask` / `num_tell` counters.  Losses and coordinates are rationals
standing for the floats of the source. -/
structure OptState where
  archive : List ArchiveEntry
  numAsk : ℕ
  numTell : ℕ
deriving DecidableEq

/-- Modelled from the spec and from `test_base_optimizer`
(`src/nevergrad/optimization/test_base.py`, lines 88-95): telling a point again
updates its archive entry by accumulating the loss (the archive tracks the
running mean of all told losses for that point).  The spec's sentence that the
entry keeps the lowest observed loss contradicts that test, which asserts that
after re-telling the previously best point with a worse loss the recommendation
moves to the other point; the test, being the code under `src/`, is followed. -/
def updateArchive : List ArchiveEntry → List ℚ → ℚ → List ArchiveEntry
  | [], x, loss => [{ point := x, lossSum := loss, count := 1 }]
  | e :: rest, x, loss =>
    if e.point = x then { e with lossSum := e.lossSum + loss, count := e.count + 1 } :: rest
    else e :: updateArchive rest x loss

/-- Modelled from the spec: `tell(candidate, loss)` with an already-coerced float
loss updates the archive for the candidate's internal representation and
increments `num_tell`. -/
def OptState.tell (st : OptState) (x : List ℚ) (loss : ℚ) : OptState :=
  { st with archive := updateArchive st.archive x loss, numTell := st.numTell + 1 }

/-- The aggregated loss of an archive entry, the mean of its told losses. -/
def ArchiveEntry.mean (e : ArchiveEntry) : ℚ := e.lossSum / e.count

/-- Fold selecting the entry with the lowest mean loss; the strictly-less-than
comparison makes earlier (first-told) entries win ties, as the spec requires. -/
def bestEntry (e : ArchiveEntry) (rest : List ArchiveEntry) : ArchiveEntry :=
  rest.foldl (fun best e2 => if e2.mean < best.mean then e2 else best) e

/-- Modelled from the spec: `provide_recommendation()` returns the archive point
whose aggregated loss is lowest, independently of ask/tell ordering. -/
def OptState.recommend (st : OptState) : Option (List ℚ) :=
  match st.archive with
  | [] => none
  | e :: rest => some (bestEntry e rest).point

/-- The fresh optimizer state. -/
def OptState.empty : OptState := { archive := [], numAsk := 0, numTell := 0 }

/-- Python-level loss values that `tell` may receive, as exercised by
`test_tell_types`: scalars of the accepted types and the rejected list, complex
and opaque-object values. -/
inductive PyLoss where
  | pyInt : ℤ → PyLoss
  | pyBool : Bool → PyLoss
  | pyFloat : ℚ → PyLoss
  | npInt32 : ℤ → PyLoss
  | npInt64 : ℤ → PyLoss
  | npFloat32 : ℚ → PyLoss
  | npFloat64 : ℚ → PyLoss
  | pyList : List ℤ → PyLoss
  | pyComplex : ℚ → ℚ → PyLoss
  | pyObject : PyLoss

/-- Modelled from the spec: the loss-type gate of `tell` accepts bool, int,
float and numpy integer/floating scalars, coercing them to float, and accepts
nothing else. -/
def coerceLoss : PyLoss → Option ℚ
  | .pyInt n => some (n : ℚ)
  | .pyBool b => some (if b then 1 else 0)
  | .pyFloat q => some q
  | .npInt32 n => some (n : ℚ)
  | .npInt64 n => some (n : ℚ)
  | .npFloat32 q => some q
  | .npFloat64 q => some q
  | .pyList _ => none
  | .pyComplex _ _ => none
  | .pyObject => none

/-- Modelled from the spec: `tell` validates the loss type first and raises a
`TypeError` before touching any state, so a rejected loss leaves the state
unchanged (the error branch returns no successor state). -/
def OptState.tellChecked (st : OptState) (x : List ℚ) (v : PyLoss) : Except String OptState :=
  match coerceLoss v with
  | some l => .ok (st.tell x l)
  | none => .error "TypeError: unsupported loss type"

/-- Events observable from the minimize driver: `ask k` is the k-th call to
`ask()` (the `sK` log line of `LoggingOptimizer`), `tell k` the `tell` of its
result (the `uK` log line). -/
inductive MEvent where
  | ask : ℕ → MEvent
  | tell : ℕ → MEvent
deriving DecidableEq

/-- Modelled from the spec: one round of the `minimize` driver issues
`min(num_workers, remaining_budget)` asks and then tells all their results
(batch mode; spec section 5).  Under a sequential evaluator the steady mode
degenerates to the very same interleaving, so the schedule does not depend on
the mode flag.  The `fuel` argument only bounds the recursion; every round
consumes at least one unit of budget, so `fuel = budget` never runs out. -/
def minimizeGo (w : ℕ) : ℕ → ℕ → ℕ → List MEvent
  | 0, _, _ => []
  | _ + 1, 0, _ => []
  | fuel + 1, r + 1, a =>
    let k := min (max w 1) (r + 1)
    ((List.range k).map fun j => MEvent.ask (a + j)) ++
      ((List.range k).map fun j => MEvent.tell (a + j)) ++
      minimizeGo w fuel (r + 1 - k) (a + k)

/-- Modelled from the spec: the event sequence of
`minimize(func, budget, num_workers, batch_mode)` against a sequential
evaluator.  The `batchMode` flag is irrelevant to the sequential schedule. -/
def minimizeEvents (budget numWorkers : ℕ) (_batchMode : Bool) : List MEvent :=
  minimizeGo numWorkers budget budget 0

theorem cosh_sub_sinh_eq (t : ℝ) : Real.cosh t - Real.sinh t = Real.exp (-t) := by
  rw [Real.cosh_eq, Real.sinh_eq]; ring

theorem cosh_add_sinh_eq (t : ℝ) : Real.cosh t + Real.sinh t = Real.exp t := by
  rw [Real.cosh_eq, Real.sinh_eq]; ring

theorem tanh_lt_one (t : ℝ) : Real.tanh t < 1 := by
  rw [Real.tanh_eq_sinh_div_cosh, div_lt_one (Real.cosh_pos t)]
  have h := cosh_sub_sinh_eq t
  have := Real.exp_pos (-t)
  linarith

theorem neg_one_lt_tanh (t : ℝ) : -1 < Real.tanh t := by
  rw [Real.tanh_eq_sinh_div_cosh, lt_div_iff₀ (Real.cosh_pos t)]
  have h := cosh_add_sinh_eq t
  have := Real.exp_pos t
  linarith

theorem arctanh_tanh (t : ℝ) : arctanh (Real.tanh t) = t := by
  have hc := Real.cosh_pos t
  have hcne : Real.cosh t ≠ 0 := ne_of_gt hc
  have hratio : (1 + Real.tanh t) / (1 - Real.tanh t) = Real.exp (2 * t) := by
    have h1 : 1 + Real.tanh t = Real.exp t / Real.cosh t := by
      rw [Real.tanh_eq_sinh_div_cosh, ← cosh_add_sinh_eq]
      field_simp
    have h2 : 1 - Real.tanh t = Real.exp (-t) / Real.cosh t := by
      rw [Real.tanh_eq_sinh_div_cosh, ← cosh_sub_sinh_eq]
      field_simp
    rw [h1, h2, div_div_div_cancel_right₀ hcne]
    rw [div_eq_iff (Real.exp_ne_zero _), ← Real.exp_add]
    ring_nf
  rw [arctanh, hratio, Real.log_exp]
  ring

theorem tanh_arctanh {z : ℝ} (h1 : -1 < z) (h2 : z < 1) : Real.tanh (arctanh z) = z := by
  have hz1 : (0:ℝ) < 1 + z := by linarith
  have hz2 : (0:ℝ) < 1 - z := by linarith
  set u := arctanh z with hu
  have hE2 : Real.exp u * Real.exp u = (1 + z) / (1 - z) := by
    rw [← Real.exp_add]
    have huu : u + u = Real.log ((1 + z) / (1 - z)) := by rw [hu, arctanh]; ring
    rw [huu, Real.exp_log (div_pos hz1 hz2)]
  have hE : (0:ℝ) < Real.exp u := Real.exp_pos u
  rw [Real.tanh_eq_sinh_div_cosh, Real.sinh_eq, Real.cosh_eq, Real.exp_neg]
  rw [div_div_div_cancel_right₀ (two_ne_zero)]
  have hden : Real.exp u + (Real.exp u)⁻¹ ≠ 0 := by positivity
  rw [div_eq_iff hden]
  have hEne : Real.exp u ≠ 0 := ne_of_gt hE
  have h1z : (1 - z) ≠ 0 := ne_of_gt hz2
  field_simp at hE2 ⊢
  nlinarith [hE2]

theorem gaussianPdf_pos (t : ℝ) : 0 < gaussianPdf t := by
  have hpi : (0:ℝ) < 2 * Real.pi := by positivity
  have hs : (0:ℝ) < Real.sqrt (2 * Real.pi) := Real.sqrt_pos.mpr hpi
  exact div_pos (Real.exp_pos _) hs

theorem gaussianPdf_eq : gaussianPdf = fun t : ℝ =>
    Real.exp (-(1/2 : ℝ) * t ^ 2) / Real.sqrt (2 * Real.pi) := by
  funext t
  unfold gaussianPdf
  norm_num [neg_div]
  ring_nf

theorem integrable_gaussianPdf : MeasureTheory.Integrable gaussianPdf := by
  rw [gaussianPdf_eq]
  exact (integrable_exp_neg_mul_sq (by norm_num : (0:ℝ) < 1/2)).div_const _

theorem integral_gaussianPdf : (∫ t : ℝ, gaussianPdf t) = 1 := by
  rw [gaussianPdf_eq]
  rw [MeasureTheory.integral_div]
  rw [integral_gaussian]
  rw [div_eq_one_iff_eq (by positivity)]
  norm_num
  ring

theorem normalCdf_sub (x y : ℝ) :
    normalCdf y - normalCdf x = ∫ t in x..y, gaussianPdf t := by
  exact intervalIntegral.integral_Iic_sub_Iic
    integrable_gaussianPdf.integrableOn integrable_gaussianPdf.integrableOn

theorem strictMono_normalCdf : StrictMono normalCdf := by
  intro x y hxy
  have h := normalCdf_sub x y
  have hpos : 0 < ∫ t in x..y, gaussianPdf t :=
    intervalIntegral.intervalIntegral_pos_of_pos
      integrable_gaussianPdf.intervalIntegrable gaussianPdf_pos hxy
  linarith

theorem normalCdf_pos (x : ℝ) : 0 < normalCdf x := by
  have hnonneg : 0 ≤ normalCdf (x - 1) := by
    apply MeasureTheory.setIntegral_nonneg measurableSet_Iic
    intro t _
    exact (gaussianPdf_pos t).le
  have h := normalCdf_sub (x - 1) x
  have hpos : 0 < ∫ t in (x - 1)..x, gaussianPdf t :=
    intervalIntegral.intervalIntegral_pos_of_pos
      integrable_gaussianPdf.intervalIntegrable gaussianPdf_pos (by linarith)
  linarith

theorem normalCdf_add_tail (x : ℝ) : normalCdf x + (∫ t in Set.Ioi x, gaussianPdf t) = 1 := by
  rw [← integral_gaussianPdf]
  exact intervalIntegral.integral_Iic_add_Ioi
    integrable_gaussianPdf.integrableOn integrable_gaussianPdf.integrableOn

theorem normalCdf_lt_one (x : ℝ) : normalCdf x < 1 := by
  have htail : 0 < ∫ t in Set.Ioi x, gaussianPdf t := by
    have hsub : 0 < ∫ t in x..(x + 1), gaussianPdf t :=
      intervalIntegral.intervalIntegral_pos_of_pos
        integrable_gaussianPdf.intervalIntegrable gaussianPdf_pos (by linarith)
    have hmono : (∫ t in Set.Ioc x (x + 1), gaussianPdf t) ≤ ∫ t in Set.Ioi x, gaussianPdf t := by
      apply MeasureTheory.setIntegral_mono_set integrable_gaussianPdf.integrableOn
      · filter_upwards with t using (gaussianPdf_pos t).le
      · exact Filter.Eventually.of_forall fun t ht => Set.Ioc_subset_Ioi_self ht
    rw [intervalIntegral.integral_of_le (by linarith : x ≤ x + 1)] at hsub
    linarith
  have h := normalCdf_add_tail x
  linarith

theorem normalCdf_eq_primitive (y : ℝ) :
    normalCdf y = normalCdf 0 + ∫ t in (0:ℝ)..y, gaussianPdf t := by
  have := normalCdf_sub 0 y
  linarith

theorem continuous_normalCdf : Continuous normalCdf := by
  have h : normalCdf = fun y => normalCdf 0 + ∫ t in (0:ℝ)..y, gaussianPdf t := by
    funext y; exact normalCdf_eq_primitive y
  rw [h]
  exact continuous_const.add (integrable_gaussianPdf.continuous_primitive 0)

theorem tendsto_normalCdf_atTop : Filter.Tendsto normalCdf Filter.atTop (nhds 1) := by
  have h : ∀ y, normalCdf y = normalCdf 0 + ∫ t in (0:ℝ)..y, gaussianPdf t :=
    normalCdf_eq_primitive
  have htend : Filter.Tendsto (fun y : ℝ => ∫ t in (0:ℝ)..y, gaussianPdf t)
      Filter.atTop (nhds (∫ t in Set.Ioi (0:ℝ), gaussianPdf t)) :=
    MeasureTheory.intervalIntegral_tendsto_integral_Ioi 0
      integrable_gaussianPdf.integrableOn Filter.tendsto_id
  have hsum := normalCdf_add_tail 0
  have : Filter.Tendsto (fun y : ℝ => normalCdf 0 + ∫ t in (0:ℝ)..y, gaussianPdf t)
      Filter.atTop (nhds (normalCdf 0 + ∫ t in Set.Ioi (0:ℝ), gaussianPdf t)) :=
    Filter.Tendsto.const_add _ htend
  rw [show normalCdf 0 + (∫ t in Set.Ioi (0:ℝ), gaussianPdf t) = 1 from hsum] at this
  exact (Filter.tendsto_congr fun y => (h y).symm).mp this

theorem tendsto_normalCdf_atBot : Filter.Tendsto normalCdf Filter.atBot (nhds 0) := by
  have h : ∀ y : ℝ, normalCdf y = normalCdf 0 - ∫ t in y..(0:ℝ), gaussianPdf t := by
    intro y
    have := normalCdf_sub y 0
    linarith
  have htend : Filter.Tendsto (fun y : ℝ => ∫ t in y..(0:ℝ), gaussianPdf t)
      Filter.atBot (nhds (∫ t in Set.Iic (0:ℝ), gaussianPdf t)) :=
    MeasureTheory.intervalIntegral_tendsto_integral_Iic 0
      integrable_gaussianPdf.integrableOn Filter.tendsto_id
  have : Filter.Tendsto (fun y : ℝ => normalCdf 0 - ∫ t in y..(0:ℝ), gaussianPdf t)
      Filter.atBot (nhds (normalCdf 0 - ∫ t in Set.Iic (0:ℝ), gaussianPdf t)) :=
    Filter.Tendsto.const_sub _ htend
  have hzero : normalCdf 0 - (∫ t in Set.Iic (0:ℝ), gaussianPdf t) = 0 := by
    unfold normalCdf; ring
  rw [hzero] at this
  exact (Filter.tendsto_congr fun y => (h y).symm).mp this

theorem normalCdf_surj {p : ℝ} (hp0 : 0 < p) (hp1 : p < 1) : ∃ x, normalCdf x = p := by
  obtain ⟨b, hb⟩ := (tendsto_normalCdf_atTop.eventually (eventually_gt_nhds hp1)).exists
  obtain ⟨a, ha⟩ := (tendsto_normalCdf_atBot.eventually (eventually_lt_nhds hp0)).exists
  have hmem : p ∈ Set.Icc (normalCdf a) (normalCdf b) := ⟨ha.le, hb.le⟩
  exact intermediate_value_univ a b continuous_normalCdf hmem

theorem normalPpf_normalCdf (x : ℝ) : normalPpf (normalCdf x) = x :=
  Function.leftInverse_invFun strictMono_normalCdf.injective x

theorem normalCdf_normalPpf {p : ℝ} (hp0 : 0 < p) (hp1 : p < 1) :
    normalCdf (normalPpf p) = p :=
  Function.invFun_eq (normalCdf_surj hp0 hp1)

theorem exceptBind_ok {α β : Type _} (a : α) (f : α → Except String β) :
    ((Except.ok a : Except String α) >>= f) = f a := rfl

theorem exceptBind_error {α β : Type _} (m : String) (f : α → Except String β) :
    ((Except.error m : Except String α) >>= f) = Except.error m := rfl

theorem checkShape_ok {shape : ℕ} {x : Arr} (h : shape = 1 ∨ x.length = shape) :
    checkShape shape x = .ok () := by
  unfold checkShape
  rcases h with h | h <;> simp [h]

theorem checkShape_error {shape : ℕ} {x : Arr} (h1 : shape ≠ 1) (h2 : x.length ≠ shape) :
    checkShape shape x = .error "Shapes do not match" := by
  unfold checkShape
  rw [if_pos ⟨h1, h2⟩]

/-- Validity of a successfully constructed pair of equal-shape bound arrays:
every (broadcast) component of `a_min` is strictly below the matching component
of `a_max`.  This is exactly what `BoundTransform.__init__` enforces, restated
elementwise; mixed-length broadcast bounds (one of length 1, the other longer),
which numpy accepts at construction but then crashes on in the arithmetic of
`forward`, are outside this predicate. -/
def validBounds (lo hi : Arr) : Prop :=
  lo.length = hi.length ∧ ∀ i, i < lo.length → bget lo i < bget hi i

theorem bget_of_len_one {v : Arr} (h : v.length = 1) (i : ℕ) : bget v i = bget v 0 := by
  unfold bget
  rw [if_pos h, if_pos h]

theorem bget_lt_of_valid {lo hi : Arr} (h : validBounds lo hi) {j : ℕ}
    (hj : lo.length = 1 ∨ j < lo.length) : bget lo j < bget hi j := by
  rcases hj with h1 | hlt
  · rw [bget_of_len_one h1 j, bget_of_len_one (h.1 ▸ h1) j]
    exact h.2 0 (by omega)
  · exact h.2 j hlt

theorem bcOk_of_bounds {lo hi x : Arr} (hlen : lo.length = hi.length)
    (h : lo.length = 1 ∨ x.length = lo.length) :
    bcOk (bclen lo.length hi.length) x.length := by
  rw [← hlen, bclen_self]
  rcases h with h | h
  · exact Or.inr (Or.inl h)
  · exact Or.inl h.symm

theorem tanh_forwardF_ok {lo hi x : Arr} (hlen : lo.length = hi.length)
    (h : lo.length = 1 ∨ x.length = lo.length) :
    TanhBound.forwardF lo hi lo.length x =
      .ok (mapWith (fun i t =>
        (bget hi i + bget lo i) / 2 + ((bget hi i - bget lo i) / 2) * Real.tanh t) 0 x) := by
  unfold TanhBound.forwardF
  rw [checkShape_ok (by tauto), exceptBind_ok,
    if_neg (not_not_intro (bcOk_of_bounds hlen h))]

theorem arctan_forwardF_ok {lo hi x : Arr} (hlen : lo.length = hi.length)
    (h : lo.length = 1 ∨ x.length = lo.length) :
    ArctanBound.forwardF lo hi lo.length x =
      .ok (mapWith (fun i t =>
        (bget hi i + bget lo i) / 2 + ((bget hi i - bget lo i) / Real.pi) * Real.arctan t) 0 x) := by
  unfold ArctanBound.forwardF
  rw [checkShape_ok (by tauto), exceptBind_ok,
    if_neg (not_not_intro (bcOk_of_bounds hlen h))]

theorem clip_forwardF_ok {lo hi x : Arr} (hlen : lo.length = hi.length)
    (h : lo.length = 1 ∨ x.length = lo.length) :
    Clipping.forwardF (some lo) (some hi) lo.length x =
      .ok (mapWith (fun i t => min (max t (bget lo i)) (bget hi i)) 0 x) := by
  unfold Clipping.forwardF
  rw [checkShape_ok (by tauto), exceptBind_ok]
  have hbl : bcOkWith x.length (some lo) := by
    show bcOk x.length lo.length
    rcases h with h | h
    · exact Or.inr (Or.inr h)
    · exact Or.inl h
  have hbh : bcOkWith x.length (some hi) := by
    show bcOk x.length hi.length
    rw [← hlen]
    rcases h with h | h
    · exact Or.inr (Or.inr h)
    · exact Or.inl h
  rw [if_neg (not_not_intro hbl), if_neg (not_not_intro hbh)]

theorem npMax_le {l : Arr} {c : ℝ} (h : ∀ i, i < l.length → l.getD i 0 ≤ c) :
    l ≠ [] → npMax l ≤ c := by
  induction l with
  | nil => intro hne; exact absurd rfl hne
  | cons t ts ih =>
    intro _
    cases ts with
    | nil => simpa [npMax] using h 0 (by simp)
    | cons s ts2 =>
      have ht : t ≤ c := by simpa using h 0 (by simp)
      have hrec : npMax (s :: ts2) ≤ c := by
        refine ih ?_ (by simp)
        intro i hi
        simpa using h (i + 1) (by simpa using Nat.succ_lt_succ hi)
      simpa [npMax] using ⟨ht, hrec⟩

theorem le_npMin {l : Arr} {c : ℝ} (h : ∀ i, i < l.length → c ≤ l.getD i 0) :
    l ≠ [] → c ≤ npMin l := by
  induction l with
  | nil => intro hne; exact absurd rfl hne
  | cons t ts ih =>
    intro _
    cases ts with
    | nil => simpa [npMin] using h 0 (by simp)
    | cons s ts2 =>
      have ht : c ≤ t := by simpa using h 0 (by simp)
      have hrec : c ≤ npMin (s :: ts2) := by
        refine ih ?_ (by simp)
        intro i hi
        simpa using h (i + 1) (by simpa using Nat.succ_lt_succ hi)
      simpa [npMin] using ⟨ht, hrec⟩

theorem bget_singleton (c : ℝ) (i : ℕ) : bget [c] i = c := by
  unfold bget
  simp

theorem map_map_id {f g : ℝ → ℝ} {x : Arr} (h : ∀ t ∈ x, g (f t) = t) :
    (x.map f).map g = x := by
  induction x with
  | nil => rfl
  | cons t ts ih =>
    simp only [List.map_cons, List.cons.injEq]
    exact ⟨h t (by simp), ih fun s hs => h s (by simp [hs])⟩

theorem bcOk_lo_of_shape {lo y : Arr} (hsh : lo.length = 1 ∨ y.length = lo.length) :
    bcOk y.length lo.length := by
  rcases hsh with h | h
  · exact Or.inr (Or.inr h)
  · exact Or.inl h

theorem tanh_backwardF_ok {lo hi y : Arr} (hlen : lo.length = hi.length)
    (hsh : lo.length = 1 ∨ y.length = lo.length)
    (hin : ∀ i, i < y.length → bget lo i ≤ y.getD i 0 ∧ y.getD i 0 ≤ bget hi i) :
    TanhBound.backwardF lo hi lo.length y =
      .ok (mapWith (fun i t =>
        arctanh ((t - (bget hi i + bget lo i) / 2) / ((bget hi i - bget lo i) / 2))) 0 y) := by
  unfold TanhBound.backwardF
  have hbclo : bcOk y.length lo.length := bcOk_lo_of_shape hsh
  have hbchi : bcOk y.length hi.length := hlen ▸ hbclo
  have hbcB : bcOk y.length (bclen lo.length hi.length) := by
    rw [← hlen, bclen_self]
    exact hbclo
  have hex1 : ¬ ∃ i ∈ List.range y.length, bget hi i < y.getD i 0 := by
    rintro ⟨i, hmem, hc⟩
    rw [List.mem_range] at hmem
    linarith [(hin i hmem).2]
  have hex2 : ¬ ∃ i ∈ List.range y.length, y.getD i 0 < bget lo i := by
    rintro ⟨i, hmem, hc⟩
    rw [List.mem_range] at hmem
    linarith [(hin i hmem).1]
  rw [checkShape_ok (by tauto), exceptBind_ok, if_neg (not_not_intro hbchi), if_neg hex1,
    if_neg (not_not_intro hbclo), if_neg hex2, if_neg (not_not_intro hbcB)]

theorem tanh_backwardF_err {lo hi y : Arr} (hsh : lo.length = 1 ∨ y.length = lo.length)
    (hbchi : bcOk y.length hi.length)
    (hout : ∃ i, i < y.length ∧ (bget hi i < y.getD i 0 ∨ y.getD i 0 < bget lo i)) :
    TanhBound.backwardF lo hi lo.length y =
      .error "Only data between bounds can be transformed back (bounds lead to infinity)." := by
  unfold TanhBound.backwardF
  have hbclo : bcOk y.length lo.length := bcOk_lo_of_shape hsh
  rw [checkShape_ok (by tauto), exceptBind_ok, if_neg (not_not_intro hbchi)]
  by_cases hex1 : ∃ i ∈ List.range y.length, bget hi i < y.getD i 0
  · rw [if_pos hex1]
  · have hex2 : ∃ i ∈ List.range y.length, y.getD i 0 < bget lo i := by
      obtain ⟨i, hilt, hc⟩ := hout
      rcases hc with hc | hc
      · exact absurd ⟨i, List.mem_range.mpr hilt, hc⟩ hex1
      · exact ⟨i, List.mem_range.mpr hilt, hc⟩
    rw [if_neg hex1, if_neg (not_not_intro hbclo), if_pos hex2]

theorem tanh_backwardF_bcErr {lo hi y : Arr} (hsh : lo.length = 1 ∨ y.length = lo.length)
    (hbc : ¬ bcOk y.length hi.length) :
    TanhBound.backwardF lo hi lo.length y =
      .error "operands could not be broadcast together" := by
  unfold TanhBound.backwardF
  rw [checkShape_ok (by tauto), exceptBind_ok, if_pos hbc]

theorem tanh_roundtrip {lo hi x : Arr} (hv : validBounds lo hi)
    (hsh : lo.length = 1 ∨ x.length = lo.length) :
    (TanhBound.forwardF lo hi lo.length x) >>= TanhBound.backwardF lo hi lo.length =
      .ok x := by
  rw [tanh_forwardF_ok hv.1 hsh, exceptBind_ok]
  have hlen : (mapWith (fun i t =>
      (bget hi i + bget lo i) / 2 + ((bget hi i - bget lo i) / 2) * Real.tanh t) 0 x).length
      = x.length := mapWith_length _ 0 x
  have hval : ∀ j, j < x.length → bget lo j < bget hi j := by
    intro j hj
    refine bget_lt_of_valid hv ?_
    rcases hsh with h | h
    · exact Or.inl h
    · exact Or.inr (h ▸ hj)
  rw [tanh_backwardF_ok hv.1 (by rw [hlen]; tauto) ?hin]
  case hin =>
    intro i hilt
    rw [hlen] at hilt
    rw [mapWith_getD _ x 0 i hilt]
    simp only [Nat.zero_add]
    have ha : 0 < (bget hi i - bget lo i) / 2 := by linarith [hval i hilt]
    have h1 := tanh_lt_one (x.getD i 0)
    have h2 := neg_one_lt_tanh (x.getD i 0)
    constructor <;> nlinarith
  rw [mapWith_mapWith]
  congr 1
  refine mapWith_eq_self _ 0 x ?_
  intro j hj
  have ha : (bget hi j - bget lo j) / 2 ≠ 0 := by
    have := hval j hj
    intro hcon
    apply absurd hcon
    intro h0
    linarith
  simp only [Nat.zero_add]
  rw [show (bget hi j + bget lo j) / 2 + (bget hi j - bget lo j) / 2 * Real.tanh (x.getD j 0)
      - (bget hi j + bget lo j) / 2 = (bget hi j - bget lo j) / 2 * Real.tanh (x.getD j 0) by ring]
  rw [mul_div_cancel_left₀ _ ha]
  exact arctanh_tanh _

theorem tanh_rev_roundtrip {lo hi y : Arr} (hv : validBounds lo hi)
    (hsh : lo.length = 1 ∨ y.length = lo.length)
    (hin : ∀ i, i < y.length → bget lo i < y.getD i 0 ∧ y.getD i 0 < bget hi i) :
    (TanhBound.backwardF lo hi lo.length y) >>= TanhBound.forwardF lo hi lo.length =
      .ok y := by
  rw [tanh_backwardF_ok hv.1 hsh (fun i hi => ⟨(hin i hi).1.le, (hin i hi).2.le⟩),
    exceptBind_ok]
  have hlen : (mapWith (fun i t =>
      arctanh ((t - (bget hi i + bget lo i) / 2) / ((bget hi i - bget lo i) / 2))) 0 y).length
      = y.length := mapWith_length _ 0 y
  rw [tanh_forwardF_ok hv.1 (by rw [hlen]; tauto)]
  rw [mapWith_mapWith]
  congr 1
  refine mapWith_eq_self _ 0 y ?_
  intro j hj
  simp only [Nat.zero_add]
  have hval : bget lo j < bget hi j := by
    refine bget_lt_of_valid hv ?_
    rcases hsh with h | h
    · exact Or.inl h
    · exact Or.inr (h ▸ hj)
  have ha : (0:ℝ) < (bget hi j - bget lo j) / 2 := by linarith
  have hane : (bget hi j - bget lo j) / 2 ≠ 0 := ne_of_gt ha
  have hj1 := (hin j hj).1
  have hj2 := (hin j hj).2
  have hz1 : -1 < (y.getD j 0 - (bget hi j + bget lo j) / 2) / ((bget hi j - bget lo j) / 2) := by
    rw [lt_div_iff₀ ha]
    linarith
  have hz2 : (y.getD j 0 - (bget hi j + bget lo j) / 2) / ((bget hi j - bget lo j) / 2) < 1 := by
    rw [div_lt_iff₀ ha]
    linarith
  rw [tanh_arctanh hz1 hz2]
  have hne2 : bget hi j - bget lo j ≠ 0 := by intro hcon; linarith
  field_simp
  ring

theorem arctan_backwardF_ok_scalar {l0 h0 : ℝ} {y : Arr} (hy : y ≠ [])
    (hin : ∀ i, i < y.length → l0 ≤ y.getD i 0 ∧ y.getD i 0 ≤ h0) :
    ArctanBound.backwardF [l0] [h0] 1 y =
      .ok (mapWith (fun i t =>
        Real.tan ((t - (bget [h0] i + bget [l0] i) / 2) / ((bget [h0] i - bget [l0] i) / Real.pi))) 0 y) := by
  unfold ArctanBound.backwardF
  rw [checkShape_ok (Or.inl rfl), exceptBind_ok, if_neg hy]
  have hmax : ¬ (h0 < npMax y) := by
    push_neg
    exact npMax_le (fun i hi => (hin i hi).2) hy
  have hmin : ¬ (npMin y < l0) := by
    push_neg
    exact le_npMin (fun i hi => (hin i hi).1) hy
  have hd1 : decide (h0 < npMax y) = false := decide_eq_false hmax
  have hd2 : decide (npMin y < l0) = false := decide_eq_false hmin
  simp only [List.map_cons, List.map_nil, hd1, hd2, npTruthy, exceptBind_ok,
    Bool.false_eq_true, if_false]

theorem arctan_backwardF_err_scalar {l0 h0 : ℝ} {y : Arr}
    (hout : ∃ i, i < y.length ∧ (h0 < y.getD i 0 ∨ y.getD i 0 < l0)) :
    ArctanBound.backwardF [l0] [h0] 1 y = .error "Only data between bounds can be transformed back." := by
  unfold ArctanBound.backwardF
  have hy : y ≠ [] := by
    intro hcon
    obtain ⟨i, hilt, _⟩ := hout
    rw [hcon] at hilt
    exact absurd hilt (by simp)
  rw [checkShape_ok (Or.inl rfl), exceptBind_ok, if_neg hy]
  obtain ⟨i, hilt, hc⟩ := hout
  rcases hc with hc | hc
  · have hmax : h0 < npMax y := lt_of_lt_of_le hc (getD_le_npMax y i hilt)
    have hd1 : decide (h0 < npMax y) = true := decide_eq_true hmax
    simp only [List.map_cons, List.map_nil, hd1, npTruthy, exceptBind_ok, if_true]
  · by_cases hmax : h0 < npMax y
    · have hd1 : decide (h0 < npMax y) = true := decide_eq_true hmax
      simp only [List.map_cons, List.map_nil, hd1, npTruthy, exceptBind_ok, if_true]
    · have hmin : npMin y < l0 := lt_of_le_of_lt (npMin_le_getD y i hilt) hc
      have hd1 : decide (h0 < npMax y) = false := decide_eq_false hmax
      have hd2 : decide (npMin y < l0) = true := decide_eq_true hmin
      simp only [List.map_cons, List.map_nil, hd1, hd2, npTruthy, exceptBind_ok,
        Bool.false_eq_true, if_false, if_true]

theorem arctan_val_mem {l0 h0 : ℝ} (hlt : l0 < h0) (t : ℝ) :
    l0 < (h0 + l0) / 2 + (h0 - l0) / Real.pi * Real.arctan t ∧
      (h0 + l0) / 2 + (h0 - l0) / Real.pi * Real.arctan t < h0 := by
  have hpi := Real.pi_pos
  have ha : 0 < (h0 - l0) / Real.pi := div_pos (by linarith) hpi
  have hup : (h0 - l0) / Real.pi * Real.arctan t < (h0 - l0) / Real.pi * (Real.pi / 2) :=
    mul_lt_mul_of_pos_left (Real.arctan_lt_pi_div_two t) ha
  have hlow : (h0 - l0) / Real.pi * (-(Real.pi / 2)) < (h0 - l0) / Real.pi * Real.arctan t :=
    mul_lt_mul_of_pos_left (Real.neg_pi_div_two_lt_arctan t) ha
  have heq : (h0 - l0) / Real.pi * (Real.pi / 2) = (h0 - l0) / 2 := by
    field_simp
  have heq2 : (h0 - l0) / Real.pi * (-(Real.pi / 2)) = -((h0 - l0) / 2) := by
    field_simp
    ring
  rw [heq] at hup
  rw [heq2] at hlow
  constructor <;> linarith

theorem arctan_roundtrip {l0 h0 : ℝ} (hlt : l0 < h0) {x : Arr} (hx : x ≠ []) :
    (ArctanBound.forwardF [l0] [h0] 1 x) >>= ArctanBound.backwardF [l0] [h0] 1 = .ok x := by
  have hfwd := @arctan_forwardF_ok [l0] [h0] x rfl (Or.inl rfl)
  simp only [List.length_cons, List.length_nil, Nat.zero_add, bget_singleton] at hfwd
  rw [hfwd, exceptBind_ok]
  have hlen := mapWith_length
    (fun _ t => (h0 + l0) / 2 + (h0 - l0) / Real.pi * Real.arctan t) 0 x
  have hyne : mapWith (fun _ t => (h0 + l0) / 2 + (h0 - l0) / Real.pi * Real.arctan t) 0 x ≠ [] := by
    intro hcon
    apply hx
    have := hlen
    rw [hcon] at this
    exact List.length_eq_zero.mp this.symm
  have hbw := @arctan_backwardF_ok_scalar l0 h0 _ hyne ?hin
  case hin =>
    intro i hilt
    rw [hlen] at hilt
    rw [mapWith_getD _ x 0 i hilt]
    have := arctan_val_mem hlt (x.getD i 0)
    exact ⟨this.1.le, this.2.le⟩
  rw [hbw]
  simp only [bget_singleton]
  rw [mapWith_mapWith]
  congr 1
  refine mapWith_eq_self _ 0 x ?_
  intro j hj
  have hpi := Real.pi_pos
  have ha : (0:ℝ) < (h0 - l0) / Real.pi := div_pos (by linarith) hpi
  have hane := ne_of_gt ha
  rw [show (h0 + l0) / 2 + (h0 - l0) / Real.pi * Real.arctan (x.getD j 0) - (h0 + l0) / 2
      = (h0 - l0) / Real.pi * Real.arctan (x.getD j 0) by ring]
  rw [mul_div_cancel_left₀ _ hane]
  rw [Real.tan_arctan]

theorem arctan_rev_roundtrip {l0 h0 : ℝ} (hlt : l0 < h0) {y : Arr} (hy : y ≠ [])
    (hin : ∀ i, i < y.length → l0 < y.getD i 0 ∧ y.getD i 0 < h0) :
    (ArctanBound.backwardF [l0] [h0] 1 y) >>= ArctanBound.forwardF [l0] [h0] 1 = .ok y := by
  rw [arctan_backwardF_ok_scalar hy (fun i hi => ⟨(hin i hi).1.le, (hin i hi).2.le⟩)]
  rw [exceptBind_ok]
  simp only [bget_singleton]
  have hfwd := @arctan_forwardF_ok [l0] [h0]
    (mapWith (fun _ t => Real.tan ((t - (h0 + l0) / 2) / ((h0 - l0) / Real.pi))) 0 y)
    rfl (Or.inl rfl)
  simp only [List.length_cons, List.length_nil, Nat.zero_add, bget_singleton] at hfwd
  rw [hfwd]
  rw [mapWith_mapWith]
  congr 1
  refine mapWith_eq_self _ 0 y ?_
  intro j hj
  have hpi := Real.pi_pos
  have ha : (0:ℝ) < (h0 - l0) / Real.pi := div_pos (by linarith) hpi
  have hj1 := (hin j hj).1
  have hj2 := (hin j hj).2
  have heq : (h0 - l0) / Real.pi * (Real.pi / 2) = (h0 - l0) / 2 := by
    field_simp
  have hz2 : (y.getD j 0 - (h0 + l0) / 2) / ((h0 - l0) / Real.pi) < Real.pi / 2 := by
    rw [div_lt_iff₀ ha]
    rw [mul_comm ((h0 - l0) / Real.pi) (Real.pi / 2)] at heq
    rw [heq]
    linarith
  have hz1 : -(Real.pi / 2) < (y.getD j 0 - (h0 + l0) / 2) / ((h0 - l0) / Real.pi) := by
    rw [lt_div_iff₀ ha]
    have : -(Real.pi / 2) * ((h0 - l0) / Real.pi) = -((h0 - l0) / 2) := by
      field_simp
      ring
    rw [this]
    linarith
  rw [Real.arctan_tan hz1 hz2]
  rw [mul_comm ((h0 - l0) / Real.pi) _, div_mul_cancel₀ _ (ne_of_gt ha)]
  ring

theorem affine_roundtrip {a b : ℝ} (ha : a ≠ 0) (x : Arr) :
    (Affine.forwardF a b x) >>= Affine.backwardF a b = .ok x := by
  unfold Affine.forwardF Affine.backwardF
  rw [exceptBind_ok]
  congr 1
  refine map_map_id ?_
  intro t _
  field_simp

theorem affine_rev_roundtrip {a b : ℝ} (ha : a ≠ 0) (y : Arr) :
    (Affine.backwardF a b y) >>= Affine.forwardF a b = .ok y := by
  unfold Affine.forwardF Affine.backwardF
  rw [exceptBind_ok]
  congr 1
  refine map_map_id ?_
  intro t _
  field_simp

theorem log_base_ne_zero {base : ℝ} (hb : 0 < base) (hb1 : base ≠ 1) : Real.log base ≠ 0 := by
  intro hcon
  rcases Real.log_eq_zero.mp hcon with h | h | h
  · linarith
  · exact hb1 h
  · linarith

theorem expo_roundtrip {base coeff : ℝ} (hb : 0 < base) (hb1 : base ≠ 1) (hc : coeff ≠ 0)
    (x : Arr) :
    (Exponentiate.forwardF base coeff x) >>= Exponentiate.backwardF base coeff = .ok x := by
  unfold Exponentiate.forwardF Exponentiate.backwardF
  rw [exceptBind_ok]
  congr 1
  refine map_map_id ?_
  intro t _
  rw [Real.log_rpow hb]
  have := log_base_ne_zero hb hb1
  field_simp
  ring

theorem expo_rev_roundtrip {base coeff : ℝ} (hb : 0 < base) (hb1 : base ≠ 1) (hc : coeff ≠ 0)
    {y : Arr} (hpos : ∀ t ∈ y, 0 < t) :
    (Exponentiate.backwardF base coeff y) >>= Exponentiate.forwardF base coeff = .ok y := by
  unfold Exponentiate.forwardF Exponentiate.backwardF
  rw [exceptBind_ok]
  congr 1
  refine map_map_id ?_
  intro t ht
  have hlb := log_base_ne_zero hb hb1
  have harg : coeff * (Real.log t / (coeff * Real.log base)) = Real.log t / Real.log base := by
    field_simp
    ring
  rw [harg, Real.log_div_log, Real.rpow_logb hb hb1 (hpos t ht)]

theorem getD_map_mem {f : ℝ → ℝ} {x : Arr} {i : ℕ} (hi : i < (x.map f).length) :
    (x.map f).getD i 0 = f (x.getD i 0) := by
  have hix : i < x.length := by simpa using hi
  rw [List.getD_eq_getElem _ _ hi, List.getD_eq_getElem _ _ hix]
  simp

theorem cd_roundtrip {x : Arr} (hx : x ≠ []) :
    (CumulativeDensity.forwardF x) >>= CumulativeDensity.backwardF = .ok x := by
  unfold CumulativeDensity.forwardF CumulativeDensity.backwardF
  rw [exceptBind_ok]
  have hmne : x.map normalCdf ≠ [] := by
    intro hcon
    exact hx (List.map_eq_nil.mp hcon)
  rw [if_neg hmne, if_neg]
  · congr 1
    refine map_map_id ?_
    intro t _
    exact normalPpf_normalCdf t
  · rintro (hc | hc)
    · have hle : npMax (x.map normalCdf) ≤ 1 := by
        refine npMax_le ?_ hmne
        intro i hilt
        rw [getD_map_mem hilt]
        exact (normalCdf_lt_one _).le
      linarith
    · have hge : 0 ≤ npMin (x.map normalCdf) := by
        refine le_npMin ?_ hmne
        intro i hilt
        rw [getD_map_mem hilt]
        exact (normalCdf_pos _).le
      linarith

theorem cd_rev_roundtrip {y : Arr} (hy : y ≠ []) (hin : ∀ t ∈ y, 0 < t ∧ t < 1) :
    (CumulativeDensity.backwardF y) >>= CumulativeDensity.forwardF = .ok y := by
  unfold CumulativeDensity.forwardF CumulativeDensity.backwardF
  rw [if_neg hy, if_neg]
  · rw [exceptBind_ok]
    congr 1
    refine map_map_id ?_
    intro t ht
    exact normalCdf_normalPpf (hin t ht).1 (hin t ht).2
  · rintro (hc | hc)
    · have hle : npMax y ≤ 1 := by
        refine npMax_le ?_ hy
        intro i hilt
        have hmem : y.getD i 0 ∈ y := by
          rw [List.getD_eq_getElem _ _ hilt]
          exact List.getElem_mem hilt
        exact (hin _ hmem).2.le
      linarith
    · have hge : 0 ≤ npMin y := by
        refine le_npMin ?_ hy
        intro i hilt
        have hmem : y.getD i 0 ∈ y := by
          rw [List.getD_eq_getElem _ _ hilt]
          exact List.getElem_mem hilt
        exact (hin _ hmem).1.le
      linarith

/-- C4: for every transform `T` and every input, `T.reverted().reverted()`
produces the same forward and backward outputs as `T` itself (the name may
differ, and indeed gains an `Rv(Rv(...))` wrapper). -/
theorem claim_C4_reverted_involution (t : Transform) (x y : Arr) :
    (t.reverted.reverted).forward x = t.forward x ∧
      (t.reverted.reverted).backward y = t.backward y :=
  ⟨rfl, rfl⟩

/-- C9: the minimize driver's event interleavings: with one worker and budget 5
strict ask/tell alternation in both modes; with three workers and budget 5 a
full round of three asks then their tells, then a partial round of two, in batch
mode and (degenerately, under a sequential evaluator) in steady mode.  These are
the four parametrizations of `test_batch_and_steady_optimization`. -/
theorem claim_C9_minimize_interleavings :
    minimizeEvents 5 1 true = [.ask 0, .tell 0, .ask 1, .tell 1, .ask 2, .tell 2,
      .ask 3, .tell 3, .ask 4, .tell 4] ∧
    minimizeEvents 5 1 false = [.ask 0, .tell 0, .ask 1, .tell 1, .ask 2, .tell 2,
      .ask 3, .tell 3, .ask 4, .tell 4] ∧
    minimizeEvents 5 3 true = [.ask 0, .ask 1, .ask 2, .tell 0, .tell 1, .tell 2,
      .ask 3, .ask 4, .tell 3, .tell 4] ∧
    minimizeEvents 5 3 false = [.ask 0, .ask 1, .ask 2, .tell 0, .tell 1, .tell 2,
      .ask 3, .ask 4, .tell 3, .tell 4] := by
  refine ⟨?_, ?_, ?_, ?_⟩ <;> decide

/-- C8: the loss-type gate of `tell`: bool, int, float and numpy scalar losses
are accepted (and coerced); list, complex and object losses raise a `TypeError`;
and a rejected `tell` produces no successor state at all, so counters, archive
and recommendation are untouched. -/
theorem claim_C8_tell_loss_type_gate (st : OptState) (x : List ℚ) :
    (∀ n : ℤ, st.tellChecked x (.pyInt n) = .ok (st.tell x (n : ℚ))) ∧
    (∀ bv : Bool, st.tellChecked x (.pyBool bv) = .ok (st.tell x (if bv then 1 else 0))) ∧
    (∀ q : ℚ, st.tellChecked x (.pyFloat q) = .ok (st.tell x q)) ∧
    (∀ n : ℤ, st.tellChecked x (.npInt32 n) = .ok (st.tell x (n : ℚ))) ∧
    (∀ n : ℤ, st.tellChecked x (.npInt64 n) = .ok (st.tell x (n : ℚ))) ∧
    (∀ q : ℚ, st.tellChecked x (.npFloat32 q) = .ok (st.tell x q)) ∧
    (∀ q : ℚ, st.tellChecked x (.npFloat64 q) = .ok (st.tell x q)) ∧
    (∀ l : List ℤ, st.tellChecked x (.pyList l) = .error "TypeError: unsupported loss type") ∧
    (∀ re im : ℚ, st.tellChecked x (.pyComplex re im) =
      .error "TypeError: unsupported loss type") ∧
    (st.tellChecked x .pyObject = .error "TypeError: unsupported loss type") ∧
    (∀ v : PyLoss, coerceLoss v = none → ∀ st2 : OptState, st.tellChecked x v ≠ .ok st2) := by
  refine ⟨fun n => rfl, fun bv => rfl, fun q => rfl, fun n => rfl, fun n => rfl,
    fun q => rfl, fun q => rfl, fun l => rfl, fun re im => rfl, rfl, ?_⟩
  intro v hv st2 hcon
  unfold OptState.tellChecked at hcon
  rw [hv] at hcon
  cases hcon

theorem claim_C8_tell_loss_type_gate_witness :
    OptState.empty.tellChecked [0] (.pyInt 3) = .ok (OptState.empty.tell [0] (3 : ℚ)) ∧
    OptState.empty.tellChecked [0] .pyObject ≠ .ok (OptState.empty.tell [0] (3 : ℚ)) :=
  ⟨(claim_C8_tell_loss_type_gate OptState.empty [0]).1 3,
    (claim_C8_tell_loss_type_gate OptState.empty [0]).2.2.2.2.2.2.2.2.2.2 .pyObject rfl _⟩

/-- C1 counterexample: running the exact scenario of the claim (tells of losses
0 and 1 for the two points, then re-tells with losses 10 and 1) through the
optimizer model, the recommendation is not the first point: `test_base_optimizer`
asserts it is the second point `[1, 1]`, because a re-told point's archive entry
aggregates its losses rather than keeping the lowest. -/
theorem claim_C1_counterexample :
    ((((OptState.empty.tell [0, 0] 0).tell [1, 1] 1).tell [0, 0] 10).tell
      [1, 1] 1).recommend ≠ some [0, 0] := by
  norm_num [OptState.empty, OptState.tell, OptState.recommend, updateArchive,
    bestEntry, ArchiveEntry.mean, List.foldl]

/-- C1 amended: telling a point again accumulates its losses in the archive (the
entry tracks the running mean, not the minimum), and `provide_recommendation`
returns the point with the lowest aggregated (mean) loss, ties to the
first-told.  In the scenario the first recommendation is the first point, and
after the re-tells (first point mean 5, second point mean 1) it is the second
point, exactly as `test_base_optimizer` asserts. -/
theorem claim_C1_retell_aggregates :
    ((OptState.empty.tell [0, 0] 0).tell [1, 1] 1).recommend = some [0, 0] ∧
    ((((OptState.empty.tell [0, 0] 0).tell [1, 1] 1).tell [0, 0] 10).tell
      [1, 1] 1).recommend = some [1, 1] ∧
    ((((OptState.empty.tell [0, 0] 0).tell [1, 1] 1).tell [0, 0] 10).tell
      [1, 1] 1).archive =
      [{ point := [0, 0], lossSum := 10, count := 2 },
       { point := [1, 1], lossSum := 2, count := 2 }] := by
  refine ⟨?_, ?_, ?_⟩ <;>
    norm_num [OptState.empty, OptState.tell, OptState.recommend, updateArchive,
      bestEntry, ArchiveEntry.mean, List.foldl]

theorem tanh_val_mem {l0 h0 : ℝ} (hlt : l0 < h0) (t : ℝ) :
    l0 < (h0 + l0) / 2 + (h0 - l0) / 2 * Real.tanh t ∧
      (h0 + l0) / 2 + (h0 - l0) / 2 * Real.tanh t < h0 := by
  have h1 := tanh_lt_one t
  have h2 := neg_one_lt_tanh t
  constructor <;> nlinarith

/-- C3: for TanhBound, ArctanBound and Clipping constructed with both bounds
`[lo, hi]` (equal-shape, valid), every value of `forward(x)` for a valid-shape
input lies within `[lo, hi]` (broadcast elementwise). -/
theorem claim_C3_forward_within_bounds :
    (∀ lo hi : Arr, validBounds lo hi → ∀ x y : Arr,
      (lo.length = 1 ∨ x.length = lo.length) →
      (TanhBound.mkT lo hi).forward x = .ok y →
      ∀ i, i < y.length → bget lo i ≤ y.getD i 0 ∧ y.getD i 0 ≤ bget hi i) ∧
    (∀ lo hi : Arr, validBounds lo hi → ∀ x y : Arr,
      (lo.length = 1 ∨ x.length = lo.length) →
      (ArctanBound.mkT lo hi).forward x = .ok y →
      ∀ i, i < y.length → bget lo i ≤ y.getD i 0 ∧ y.getD i 0 ≤ bget hi i) ∧
    (∀ lo hi : Arr, validBounds lo hi → ∀ x y : Arr,
      (lo.length = 1 ∨ x.length = lo.length) →
      (Clipping.mkT (some lo) (some hi) lo.length).forward x = .ok y →
      ∀ i, i < y.length → bget lo i ≤ y.getD i 0 ∧ y.getD i 0 ≤ bget hi i) := by
  refine ⟨?_, ?_, ?_⟩
  · intro lo hi hv x y hsh hok
    rw [show (TanhBound.mkT lo hi).forward x = TanhBound.forwardF lo hi lo.length x from rfl]
      at hok
    rw [tanh_forwardF_ok hv.1 hsh] at hok
    have hy := (Except.ok.inj hok).symm
    subst hy
    intro i hilt
    rw [mapWith_length] at hilt
    rw [mapWith_getD _ x 0 i hilt]
    simp only [Nat.zero_add]
    have hval : bget lo i < bget hi i := by
      refine bget_lt_of_valid hv ?_
      rcases hsh with h | h
      · exact Or.inl h
      · exact Or.inr (h ▸ hilt)
    have := tanh_val_mem hval (x.getD i 0)
    exact ⟨this.1.le, this.2.le⟩
  · intro lo hi hv x y hsh hok
    rw [show (ArctanBound.mkT lo hi).forward x = ArctanBound.forwardF lo hi lo.length x from rfl]
      at hok
    rw [arctan_forwardF_ok hv.1 hsh] at hok
    have hy := (Except.ok.inj hok).symm
    subst hy
    intro i hilt
    rw [mapWith_length] at hilt
    rw [mapWith_getD _ x 0 i hilt]
    simp only [Nat.zero_add]
    have hval : bget lo i < bget hi i := by
      refine bget_lt_of_valid hv ?_
      rcases hsh with h | h
      · exact Or.inl h
      · exact Or.inr (h ▸ hilt)
    have := arctan_val_mem hval (x.getD i 0)
    exact ⟨this.1.le, this.2.le⟩
  · intro lo hi hv x y hsh hok
    rw [show (Clipping.mkT (some lo) (some hi) lo.length).forward x =
      Clipping.forwardF (some lo) (some hi) lo.length x from rfl] at hok
    rw [clip_forwardF_ok hv.1 hsh] at hok
    have hy := (Except.ok.inj hok).symm
    subst hy
    intro i hilt
    rw [mapWith_length] at hilt
    rw [mapWith_getD _ x 0 i hilt]
    simp only [Nat.zero_add]
    have hval : bget lo i < bget hi i := by
      refine bget_lt_of_valid hv ?_
      rcases hsh with h | h
      · exact Or.inl h
      · exact Or.inr (h ▸ hilt)
    constructor
    · exact le_min (le_max_right _ _) hval.le
    · exact min_le_right _ _

theorem claim_C3_forward_within_bounds_witness :
    bget [0] 0 ≤ ([(1:ℝ)/2] : Arr).getD 0 0 ∧ ([(1:ℝ)/2] : Arr).getD 0 0 ≤ bget [1] 0 := by
  have hvb : validBounds [0] [1] := by
    refine ⟨rfl, ?_⟩
    intro i hi
    rw [bget_singleton, bget_singleton]
    norm_num
  have hfwd : (Clipping.mkT (some [0]) (some [1]) (List.length [0])).forward [1/2] =
      .ok [1/2] := by
    rw [show (Clipping.mkT (some [0]) (some [1]) (List.length [0])).forward [1/2] =
      Clipping.forwardF (some [0]) (some [1]) (List.length [0]) [1/2] from rfl]
    refine Eq.trans (@clip_forwardF_ok [0] [1] [1/2] rfl (Or.inl rfl)) ?_
    congr 1
    rw [show (mapWith (fun i t => min (max t (bget [0] i)) (bget [1] i)) 0 [1/2] : Arr) =
      [min (max (1/2) (bget [0] 0)) (bget [1] 0)] from rfl]
    rw [bget_singleton, bget_singleton]
    norm_num
  exact claim_C3_forward_within_bounds.2.2 [0] [1] hvb [1/2] [1/2] (Or.inl rfl) hfwd 0 (by norm_num)

theorem isErr_error {α : Type _} (m : String) : isErr (Except.error m : Except String α) :=
  ⟨m, rfl⟩

theorem not_isErr_ok {α : Type _} (a : α) : ¬ isErr (Except.ok a : Except String α) := by
  rintro ⟨m, h⟩
  cases h

/-- Bound arguments whose shapes numpy can broadcast against each other; outside
this domain the `(a_min >= a_max)` comparison in `BoundTransform.__init__`
raises a broadcast error of its own. -/
def bcompat (lo hi : Option Arr) : Prop :=
  ∀ l h, lo = some l → hi = some h → broadcastable l h

theorem mkBounds_some_some_ok {l h : Arr} (hb : broadcastable l h)
    (hno : ¬ ∃ i ∈ List.range (max l.length h.length), bget h i ≤ bget l i) :
    mkBounds (some l) (some h) =
      .ok { a_min := some l, a_max := some h, shape := l.length } := by
  show (if ¬ broadcastable l h then
      (Except.error "operands could not be broadcast together" : Except String Bounds)
    else if ∃ i ∈ List.range (max l.length h.length), bget h i ≤ bget l i then
      Except.error "Lower bounds should be strictly smaller than upper bounds"
    else Except.ok { a_min := some l, a_max := some h, shape := l.length }) = _
  rw [if_neg (not_not_intro hb), if_neg hno]

theorem mkBounds_some_some_err {l h : Arr} (hb : broadcastable l h)
    (hyes : ∃ i ∈ List.range (max l.length h.length), bget h i ≤ bget l i) :
    mkBounds (some l) (some h) =
      .error "Lower bounds should be strictly smaller than upper bounds" := by
  show (if ¬ broadcastable l h then
      (Except.error "operands could not be broadcast together" : Except String Bounds)
    else if ∃ i ∈ List.range (max l.length h.length), bget h i ≤ bget l i then
      Except.error "Lower bounds should be strictly smaller than upper bounds"
    else Except.ok { a_min := some l, a_max := some h, shape := l.length }) = _
  rw [if_neg (not_not_intro hb), if_pos hyes]

theorem npTruthy_error_msg {L : List Bool} {m : String} (h : npTruthy L = .error m) :
    m = "The truth value of an array with more than one element is ambiguous" := by
  match L, h with
  | [], h => cases h
  | [b], h => cases h
  | a :: b :: l, h => exact (Except.error.inj h).symm

theorem length_eq_one_singleton {v : Arr} (h : v.length = 1) : ∃ c, v = [c] :=
  List.length_eq_one.mp h

/-- C6 counterexample: the claim says that for shape `(1,)` any input shape is
accepted, but `TanhBound` built from the singleton lower bound `[0]` and the
three-element upper bound `[1, 2, 3]` (its fixed shape is `a_min.shape = (1,)`,
so `_check_shape` passes) raises a numpy broadcast error in
`self._b + self._a * np.tanh(x)` on the two-element input `[5, 6]` instead of
returning a value. -/
theorem claim_C6_counterexample :
    (TanhBound.mkT [0] [1, 2, 3]).forward [5, 6] =
      .error "operands could not be broadcast together" := rfl

/-- C6 amended: for every bound-based transform built from equal-shape bounds,
when the fixed shape is not the singleton, `forward` and `backward` raise the
shape-mismatch `ValueError` on inputs of a different shape; when the shape is
the singleton, `forward` accepts inputs of any shape, and `backward` never
raises the shape error (it can still raise its range validation or, on an
empty input, the zero-size reduction error).  The equal-shape-bounds
hypothesis on the acceptance components is required: with mixed-length bounds
the claim fails, because broadcasting against the longer bound raises (see the
counterexample).  Stated for TanhBound, ArctanBound and two-bound Clipping. -/
theorem claim_C6_shape_validation :
    (∀ lo hi x : Arr, lo.length ≠ 1 → x.length ≠ lo.length →
      (TanhBound.mkT lo hi).forward x = .error "Shapes do not match" ∧
      (TanhBound.mkT lo hi).backward x = .error "Shapes do not match") ∧
    (∀ lo hi x : Arr, lo.length = hi.length → lo.length = 1 →
      isOk ((TanhBound.mkT lo hi).forward x) ∧
      (TanhBound.mkT lo hi).backward x ≠ .error "Shapes do not match") ∧
    (∀ lo hi x : Arr, lo.length ≠ 1 → x.length ≠ lo.length →
      (ArctanBound.mkT lo hi).forward x = .error "Shapes do not match" ∧
      (ArctanBound.mkT lo hi).backward x = .error "Shapes do not match") ∧
    (∀ lo hi x : Arr, lo.length = hi.length → lo.length = 1 →
      isOk ((ArctanBound.mkT lo hi).forward x) ∧
      (ArctanBound.mkT lo hi).backward x ≠ .error "Shapes do not match") ∧
    (∀ lo hi x : Arr, lo.length ≠ 1 → x.length ≠ lo.length →
      (Clipping.mkT (some lo) (some hi) lo.length).forward x = .error "Shapes do not match" ∧
      (Clipping.mkT (some lo) (some hi) lo.length).backward x =
        .error "Shapes do not match") ∧
    (∀ lo hi x : Arr, lo.length = hi.length → lo.length = 1 →
      isOk ((Clipping.mkT (some lo) (some hi) lo.length).forward x) ∧
      (Clipping.mkT (some lo) (some hi) lo.length).backward x ≠
        .error "Shapes do not match") := by
  refine ⟨?_, ?_, ?_, ?_, ?_, ?_⟩
  · intro lo hi x h1 h2
    constructor
    · show TanhBound.forwardF lo hi lo.length x = _
      unfold TanhBound.forwardF
      rw [checkShape_error h1 h2, exceptBind_error]
    · show TanhBound.backwardF lo hi lo.length x = _
      unfold TanhBound.backwardF
      rw [checkShape_error h1 h2, exceptBind_error]
  · intro lo hi x hlen h1
    constructor
    · exact isOk_of_eq (tanh_forwardF_ok hlen (Or.inl h1))
    · show TanhBound.backwardF lo hi lo.length x ≠ _
      unfold TanhBound.backwardF
      rw [checkShape_ok (Or.inl h1), exceptBind_ok]
      by_cases hb1 : ¬ bcOk x.length hi.length
      · rw [if_pos hb1]
        intro hcon
        exact absurd (Except.error.inj hcon) (by decide)
      · rw [if_neg hb1]
        by_cases hc1 : ∃ i ∈ List.range x.length, bget hi i < x.getD i 0
        · rw [if_pos hc1]
          intro hcon
          exact absurd (Except.error.inj hcon) (by decide)
        · rw [if_neg hc1]
          by_cases hb2 : ¬ bcOk x.length lo.length
          · rw [if_pos hb2]
            intro hcon
            exact absurd (Except.error.inj hcon) (by decide)
          · rw [if_neg hb2]
            by_cases hc2 : ∃ i ∈ List.range x.length, x.getD i 0 < bget lo i
            · rw [if_pos hc2]
              intro hcon
              exact absurd (Except.error.inj hcon) (by decide)
            · rw [if_neg hc2]
              by_cases hb3 : ¬ bcOk x.length (bclen lo.length hi.length)
              · rw [if_pos hb3]
                intro hcon
                exact absurd (Except.error.inj hcon) (by decide)
              · rw [if_neg hb3]
                intro hcon
                cases hcon
  · intro lo hi x h1 h2
    constructor
    · show ArctanBound.forwardF lo hi lo.length x = _
      unfold ArctanBound.forwardF
      rw [checkShape_error h1 h2, exceptBind_error]
    · show ArctanBound.backwardF lo hi lo.length x = _
      unfold ArctanBound.backwardF
      rw [checkShape_error h1 h2, exceptBind_error]
  · intro lo hi x hlen h1
    constructor
    · exact isOk_of_eq (arctan_forwardF_ok hlen (Or.inl h1))
    · show ArctanBound.backwardF lo hi lo.length x ≠ _
      unfold ArctanBound.backwardF
      rw [checkShape_ok (Or.inl h1), exceptBind_ok]
      by_cases hx : x = []
      · rw [if_pos hx]
        intro hcon
        exact absurd (Except.error.inj hcon) (by decide)
      · rw [if_neg hx]
        cases hnp : npTruthy (hi.map fun hv => decide (hv < npMax x)) with
        | error m =>
          rw [exceptBind_error]
          intro hcon
          have := npTruthy_error_msg hnp
          rw [Except.error.inj hcon] at this
          exact absurd this (by decide)
        | ok c1 =>
          rw [exceptBind_ok]
          cases c1 with
          | true =>
            intro hcon
            exact absurd (Except.error.inj hcon) (by decide)
          | false =>
            show (npTruthy (lo.map fun lv => decide (npMin x < lv)) >>= fun c2 =>
              if c2 then _ else _) ≠ _
            obtain ⟨c, hceq⟩ := length_eq_one_singleton h1
            subst hceq
            rw [show ((([c] : Arr).map fun lv => decide (npMin x < lv)) : List Bool) =
              [decide (npMin x < c)] from rfl]
            rw [show npTruthy [decide (npMin x < c)] = .ok (decide (npMin x < c)) from rfl]
            rw [exceptBind_ok]
            cases hdec : decide (npMin x < c) with
            | true =>
              intro hcon
              exact absurd (Except.error.inj hcon) (by decide)
            | false =>
              intro hcon
              cases hcon
  · intro lo hi x h1 h2
    constructor
    · show Clipping.forwardF (some lo) (some hi) lo.length x = _
      unfold Clipping.forwardF
      rw [checkShape_error h1 h2, exceptBind_error]
    · show Clipping.backwardF (some lo) (some hi) lo.length x = _
      unfold Clipping.backwardF
      rw [checkShape_error h1 h2, exceptBind_error]
  · intro lo hi x hlen h1
    constructor
    · exact isOk_of_eq (clip_forwardF_ok hlen (Or.inl h1))
    · show Clipping.backwardF (some lo) (some hi) lo.length x ≠ _
      unfold Clipping.backwardF
      rw [checkShape_ok (Or.inl h1), exceptBind_ok]
      show ((if x = [] then
          (Except.error "zero-size array to reduction operation maximum which has no identity"
            : Except String Bool)
        else npTruthy (hi.map fun hv => decide (hv < npMax x))) >>= fun c1 =>
        if c1 then Except.error "Only data between bounds can be transformed back."
        else ((if x = [] then
            (Except.error "zero-size array to reduction operation minimum which has no identity"
              : Except String Bool)
          else npTruthy (lo.map fun lv => decide (npMin x < lv))) >>= fun c2 =>
          if c2 then Except.error "Only data between bounds can be transformed back."
          else Except.ok x)) ≠ Except.error "Shapes do not match"
      by_cases hx : x = []
      · rw [if_pos hx, exceptBind_error]
        intro hcon
        exact absurd (Except.error.inj hcon) (by decide)
      · rw [if_neg hx]
        cases hnp : npTruthy (hi.map fun hv => decide (hv < npMax x)) with
        | error m =>
          rw [exceptBind_error]
          intro hcon
          have := npTruthy_error_msg hnp
          rw [Except.error.inj hcon] at this
          exact absurd this (by decide)
        | ok c1 =>
          rw [exceptBind_ok]
          cases c1 with
          | true =>
            intro hcon
            exact absurd (Except.error.inj hcon) (by decide)
          | false =>
            show ((if x = [] then
                (Except.error
                  "zero-size array to reduction operation minimum which has no identity"
                  : Except String Bool)
              else npTruthy (lo.map fun lv => decide (npMin x < lv))) >>= fun c2 =>
              if c2 then _ else _) ≠ _
            rw [if_neg hx]
            obtain ⟨c, hceq⟩ := length_eq_one_singleton h1
            subst hceq
            rw [show ((([c] : Arr).map fun lv => decide (npMin x < lv)) : List Bool) =
              [decide (npMin x < c)] from rfl]
            rw [show npTruthy [decide (npMin x < c)] = .ok (decide (npMin x < c)) from rfl]
            rw [exceptBind_ok]
            cases hdec : decide (npMin x < c) with
            | true =>
              intro hcon
              exact absurd (Except.error.inj hcon) (by decide)
            | false =>
              intro hcon
              cases hcon

theorem claim_C6_shape_validation_witness :
    (TanhBound.mkT [0, 0] [1, 1]).forward [0] = .error "Shapes do not match" ∧
    isOk ((TanhBound.mkT [0] [1]).forward [5, 6, 7]) :=
  ⟨(claim_C6_shape_validation.1 [0, 0] [1, 1] [0] (by simp) (by simp)).1,
    (claim_C6_shape_validation.2.1 [0] [1] [5, 6, 7] rfl rfl).1⟩

theorem clip_backwardF_reduce (lo hi : Option Arr) (y : Arr) :
    Clipping.backwardF lo hi 1 y =
      ((match hi with
        | none => Except.ok false
        | some h =>
          if y = [] then
            .error "zero-size array to reduction operation maximum which has no identity"
          else npTruthy (h.map fun hv => decide (hv < npMax y))) >>= fun c1 =>
      if c1 then .error "Only data between bounds can be transformed back."
      else
        (match lo with
          | none => Except.ok false
          | some l =>
            if y = [] then
              .error "zero-size array to reduction operation minimum which has no identity"
            else npTruthy (l.map fun lv => decide (npMin y < lv))) >>= fun c2 =>
        if c2 then .error "Only data between bounds can be transformed back."
        else .ok y) := by
  unfold Clipping.backwardF
  rw [checkShape_ok (Or.inl rfl), exceptBind_ok]

theorem clip_backwardF_err_upper {h0 : ℝ} {lo : Option Arr} {y : Arr}
    (hout : ∃ i, i < y.length ∧ h0 < y.getD i 0) :
    Clipping.backwardF lo (some [h0]) 1 y =
      .error "Only data between bounds can be transformed back." := by
  rw [clip_backwardF_reduce]
  obtain ⟨i, hilt, hc⟩ := hout
  have hyne : y ≠ [] := by
    intro hcon
    rw [hcon] at hilt
    exact absurd hilt (by simp)
  have hmax : h0 < npMax y := lt_of_lt_of_le hc (getD_le_npMax y i hilt)
  have hd1 : decide (h0 < npMax y) = true := decide_eq_true hmax
  simp only [if_neg hyne, List.map_cons, List.map_nil, hd1, npTruthy, exceptBind_ok, if_true]

theorem clip_backwardF_err_lower_noUpper {l0 : ℝ} {y : Arr}
    (hout : ∃ i, i < y.length ∧ y.getD i 0 < l0) :
    Clipping.backwardF (some [l0]) none 1 y =
      .error "Only data between bounds can be transformed back." := by
  rw [clip_backwardF_reduce]
  obtain ⟨i, hilt, hc⟩ := hout
  have hyne : y ≠ [] := by
    intro hcon
    rw [hcon] at hilt
    exact absurd hilt (by simp)
  have hmin : npMin y < l0 := lt_of_le_of_lt (npMin_le_getD y i hilt) hc
  have hd2 : decide (npMin y < l0) = true := decide_eq_true hmin
  simp only [if_neg hyne, List.map_cons, List.map_nil, hd2, npTruthy, exceptBind_ok,
    Bool.false_eq_true, if_false, if_true]

theorem clip_backwardF_err_scalar {l0 h0 : ℝ} {y : Arr}
    (hout : ∃ i, i < y.length ∧ (h0 < y.getD i 0 ∨ y.getD i 0 < l0)) :
    Clipping.backwardF (some [l0]) (some [h0]) 1 y =
      .error "Only data between bounds can be transformed back." := by
  rw [clip_backwardF_reduce]
  obtain ⟨i, hilt, hc⟩ := hout
  have hyne : y ≠ [] := by
    intro hcon
    rw [hcon] at hilt
    exact absurd hilt (by simp)
  rcases hc with hc | hc
  · have hmax : h0 < npMax y := lt_of_lt_of_le hc (getD_le_npMax y i hilt)
    have hd1 : decide (h0 < npMax y) = true := decide_eq_true hmax
    simp only [if_neg hyne, List.map_cons, List.map_nil, hd1, npTruthy, exceptBind_ok, if_true]
  · by_cases hmax : h0 < npMax y
    · have hd1 : decide (h0 < npMax y) = true := decide_eq_true hmax
      simp only [if_neg hyne, List.map_cons, List.map_nil, hd1, npTruthy, exceptBind_ok, if_true]
    · have hmin : npMin y < l0 := lt_of_le_of_lt (npMin_le_getD y i hilt) hc
      have hd1 : decide (h0 < npMax y) = false := decide_eq_false hmax
      have hd2 : decide (npMin y < l0) = true := decide_eq_true hmin
      simp only [if_neg hyne, List.map_cons, List.map_nil, hd1, hd2, npTruthy, exceptBind_ok,
        Bool.false_eq_true, if_false, if_true]

/-- C7 counterexample: `Exponentiate.backward` performs no validation at all:
called at `-1`, outside its documented domain `y > 0`, it raises nothing
(numpy's `np.log` merely produces a non-real value with a warning), so the
claim's Exponentiate clause is false. -/
theorem claim_C7_counterexample : isOk ((Exponentiate.mkT 10 1).backward [(-1 : ℝ)]) :=
  ⟨_, rfl⟩

/-- C7 amended: every transform with a restricted backward domain that performs
validation - TanhBound, ArctanBound, Clipping and CumulativeDensity, but not
Exponentiate, whose backward validates nothing - raises the out-of-range
`ValueError` synchronously when some element of the input lies strictly outside
the admissible range, with no silent clamping (the error branch returns no
value).  ArctanBound and Clipping are stated with scalar bounds, the shape on
which their truthiness-based checks are well defined; TanhBound is stated with
equal-shape bounds, since with mixed-length bounds the `(y > self.a_max)`
comparison raises a numpy broadcast error instead of the range error. -/
theorem claim_C7_out_of_range_backward_raises :
    (∀ lo hi y : Arr, lo.length = hi.length → (lo.length = 1 ∨ y.length = lo.length) →
      (∃ i, i < y.length ∧ (bget hi i < y.getD i 0 ∨ y.getD i 0 < bget lo i)) →
      (TanhBound.mkT lo hi).backward y =
        .error "Only data between bounds can be transformed back (bounds lead to infinity).") ∧
    (∀ l0 h0 : ℝ, ∀ y : Arr,
      (∃ i, i < y.length ∧ (h0 < y.getD i 0 ∨ y.getD i 0 < l0)) →
      (ArctanBound.mkT [l0] [h0]).backward y =
        .error "Only data between bounds can be transformed back.") ∧
    (∀ l0 h0 : ℝ, ∀ y : Arr,
      (∃ i, i < y.length ∧ (h0 < y.getD i 0 ∨ y.getD i 0 < l0)) →
      (Clipping.mkT (some [l0]) (some [h0]) 1).backward y =
        .error "Only data between bounds can be transformed back.") ∧
    (∀ h0 : ℝ, ∀ y : Arr, (∃ i, i < y.length ∧ h0 < y.getD i 0) →
      (Clipping.mkT none (some [h0]) 1).backward y =
        .error "Only data between bounds can be transformed back.") ∧
    (∀ l0 : ℝ, ∀ y : Arr, (∃ i, i < y.length ∧ y.getD i 0 < l0) →
      (Clipping.mkT (some [l0]) none 1).backward y =
        .error "Only data between bounds can be transformed back.") ∧
    (∀ y : Arr, (∃ i, i < y.length ∧ (1 < y.getD i 0 ∨ y.getD i 0 < 0)) →
      CumulativeDensity.mkT.backward y =
        .error "Only data between 0 and 1 can be transformed back (bounds lead to infinity).") := by
  refine ⟨?_, ?_, ?_, ?_, ?_, ?_⟩
  · intro lo hi y hlen hsh hout
    have hbchi : bcOk y.length hi.length := by
      rw [← hlen]
      exact bcOk_lo_of_shape hsh
    exact tanh_backwardF_err hsh hbchi hout
  · intro l0 h0 y hout
    exact arctan_backwardF_err_scalar hout
  · intro l0 h0 y hout
    exact clip_backwardF_err_scalar hout
  · intro h0 y hout
    exact @clip_backwardF_err_upper h0 none y hout
  · intro l0 y hout
    exact clip_backwardF_err_lower_noUpper hout
  · intro y hout
    show CumulativeDensity.backwardF y = _
    unfold CumulativeDensity.backwardF
    have hyne : y ≠ [] := by
      intro hcon
      obtain ⟨i, hilt, _⟩ := hout
      rw [hcon] at hilt
      exact absurd hilt (by simp)
    rw [if_neg hyne, if_pos]
    obtain ⟨i, hilt, hc⟩ := hout
    rcases hc with hc | hc
    · exact Or.inl (lt_of_lt_of_le hc (getD_le_npMax y i hilt))
    · exact Or.inr (lt_of_le_of_lt (npMin_le_getD y i hilt) hc)

theorem claim_C7_out_of_range_backward_raises_witness :
    (TanhBound.mkT [0] [1]).backward [2] =
      .error "Only data between bounds can be transformed back (bounds lead to infinity)." ∧
    (ArctanBound.mkT [0] [1]).backward [2] =
      .error "Only data between bounds can be transformed back." ∧
    (Clipping.mkT (some [0]) (some [1]) 1).backward [2] =
      .error "Only data between bounds can be transformed back." ∧
    (Clipping.mkT none (some [1]) 1).backward [2] =
      .error "Only data between bounds can be transformed back." ∧
    (Clipping.mkT (some [0]) none 1).backward [-1] =
      .error "Only data between bounds can be transformed back." ∧
    CumulativeDensity.mkT.backward [2] =
      .error "Only data between 0 and 1 can be transformed back (bounds lead to infinity)." := by
  have hw : ∃ i, i < ([2] : Arr).length ∧
      (bget [1] i < ([2] : Arr).getD i 0 ∨ ([2] : Arr).getD i 0 < bget [0] i) := by
    refine ⟨0, by norm_num, Or.inl ?_⟩
    rw [bget_singleton]
    norm_num
  refine ⟨?_, ?_, ?_, ?_, ?_, ?_⟩
  · exact claim_C7_out_of_range_backward_raises.1 [0] [1] [2] rfl (Or.inl rfl) hw
  · refine claim_C7_out_of_range_backward_raises.2.1 0 1 [2] ⟨0, by norm_num, Or.inl ?_⟩
    norm_num
  · refine claim_C7_out_of_range_backward_raises.2.2.1 0 1 [2] ⟨0, by norm_num, Or.inl ?_⟩
    norm_num
  · refine claim_C7_out_of_range_backward_raises.2.2.2.1 1 [2] ⟨0, by norm_num, ?_⟩
    norm_num
  · refine claim_C7_out_of_range_backward_raises.2.2.2.2.1 0 [-1] ⟨0, by norm_num, ?_⟩
    norm_num
  · refine claim_C7_out_of_range_backward_raises.2.2.2.2.2 [2] ⟨0, by norm_num, Or.inl ?_⟩
    norm_num

theorem bget_eq_getD_of_lt {v : Arr} {i : ℕ} (h : i < v.length) : bget v i = v.getD i 0 := by
  unfold bget
  by_cases h1 : v.length = 1
  · rw [if_pos h1]
    have hi0 : i = 0 := by omega
    subst hi0
    cases v with
    | nil => simp at h
    | cons a l => rfl
  · rw [if_neg h1]

